import Mathlib

/-!
Shallow embedding of the polymarket-screener trader-scoring and
signal-aggregation pipeline.

Numbers are modelled by `ℚ` (JS numeric values), except where the source
uses `Math.log10`, which forces `ℝ` (`Real.logb 10`).  Missing/optional
numeric fields are `Option ℚ`, and the JS `x || d` default idiom is the
function `jsOr` below (`undefined` and `0` are falsy).
-/

namespace Screener

/-- JS `x || d` on an optional numeric field: a missing (`undefined`) value
and `0` are falsy and give the default `d`. -/
def jsOr : Option ℚ → ℚ → ℚ
  | none, d => d
  | some v, d => if v = 0 then d else v

/-- A leaderboard entry: wallet key plus the `pnl`/`vol` aggregates used by
the scorer and the aggregator (display-only fields omitted). -/
structure TraderRecord where
  proxyWallet : String
  pnl : Option ℚ
  vol : Option ℚ
  deriving DecidableEq, Repr

/-- A closed position; only `realizedPnl` is consumed by the metrics code. -/
structure ClosedPosition where
  realizedPnl : ℚ
  deriving DecidableEq, Repr

namespace EdgeScorer

/-! Embedding of `calculateEdgeScore` from `src/api/edge-traders.js`
(lines 42-79); `src/src/index.js` (lines 60-125) and `src/unnamed/part_002`
compute the identical sub-scores and weighted sum. -/

/-- Source: `const pnl = trader.pnl || 0`. -/
def pnl (t : TraderRecord) : ℚ := jsOr t.pnl 0

/-- Source: `const volume = trader.vol || 1`. -/
def volume (t : TraderRecord) : ℚ := jsOr t.vol 1

/-- Source: `const efficiency = pnl / volume`. -/
def efficiency (t : TraderRecord) : ℚ := pnl t / volume t

/-- Source: `closedPositions.filter(p => p.realizedPnl > 0)`. -/
def wins (cps : List ClosedPosition) : List ClosedPosition :=
  cps.filter (fun p => 0 < p.realizedPnl)

/-- Source: `closedPositions.filter(p => p.realizedPnl < 0)`. -/
def losses (cps : List ClosedPosition) : List ClosedPosition :=
  cps.filter (fun p => p.realizedPnl < 0)

/-- Source: `const totalTrades = wins.length + losses.length`. -/
def totalTrades (cps : List ClosedPosition) : ℕ :=
  (wins cps).length + (losses cps).length

/-- Source: `const winRate = totalTrades > 0 ? wins.length / totalTrades : 0.5`. -/
def winRate (cps : List ClosedPosition) : ℚ :=
  if 0 < totalTrades cps then ((wins cps).length : ℚ) / (totalTrades cps : ℚ) else 0.5

/-- Source: `wins.reduce((s, p) => s + p.realizedPnl, 0)`. -/
def totalWins (cps : List ClosedPosition) : ℚ :=
  (wins cps).foldl (fun s p => s + p.realizedPnl) 0

/-- Source: `Math.abs(losses.reduce((s, p) => s + p.realizedPnl, 0))`. -/
def totalLosses (cps : List ClosedPosition) : ℚ :=
  |(losses cps).foldl (fun s p => s + p.realizedPnl) 0|

/-- Source: `totalLosses > 0 ? totalWins / totalLosses : totalWins > 0 ? 10 : 1`. -/
def profitFactor (cps : List ClosedPosition) : ℚ :=
  if 0 < totalLosses cps then totalWins cps / totalLosses cps
  else if 0 < totalWins cps then 10 else 1

/-- Source: `Math.min(efficiency * 200, 100)`. -/
def efficiencyScore (t : TraderRecord) : ℚ := min (efficiency t * 200) 100

/-- Source: `winRate * 100`. -/
def winRateScore (cps : List ClosedPosition) : ℚ := winRate cps * 100

/-- Source: `Math.min(profitFactor * 20, 100)`. -/
def profitFactorScore (cps : List ClosedPosition) : ℚ :=
  min (profitFactor cps * 20) 100

/-- Source: `totalTrades > 20 ? 100 : (totalTrades / 20) * 100`. -/
def consistencyScore (cps : List ClosedPosition) : ℚ :=
  if 20 < totalTrades cps then 100 else ((totalTrades cps : ℚ) / 20) * 100

/-- Source: `Math.min(Math.log10(volume + 1) * 15, 100)`. -/
noncomputable def sizeScore (t : TraderRecord) : ℝ :=
  min (Real.logb 10 ((volume t : ℝ) + 1) * 15) 100

/-- Source: the weighted sum
`efficiencyScore * 0.30 + winRateScore * 0.25 + profitFactorScore * 0.20 +
consistencyScore * 0.15 + sizeScore * 0.10` (the value of the local
`edgeScore` variable, before display rounding). -/
noncomputable def edgeScore (t : TraderRecord) (cps : List ClosedPosition) : ℝ :=
  (efficiencyScore t : ℝ) * 0.30 + (winRateScore cps : ℝ) * 0.25 +
    (profitFactorScore cps : ℝ) * 0.20 + (consistencyScore cps : ℝ) * 0.15 +
    sizeScore t * 0.10

end EdgeScorer

namespace CopyCandidates

/-! Embedding of the copy-candidate handler in `src/unnamed/part_000`.
Its profit factor (line 67) omits the `totalWins > 0` test that the edge
scorers have; its trader aggregation (lines 41-47) is the dedupe+filter
map build, here parameterized by the volume threshold (50000 in source,
10000 in the analogous loop of `src/unnamed/part_003`). -/

/-- Source (part_000 line 67):
`const profitFactor = totalLosses > 0 ? totalWins / totalLosses : 10`. -/
def profitFactor (cps : List ClosedPosition) : ℚ :=
  if 0 < EdgeScorer.totalLosses cps then
    EdgeScorer.totalWins cps / EdgeScorer.totalLosses cps
  else 10

/-- Source (part_000 line 44): `(t.pnl || 0) > 0 && (t.vol || 0) > 50000`,
with the threshold as a parameter. -/
def qualifies (minVolume : ℚ) (t : TraderRecord) : Bool :=
  decide (0 < jsOr t.pnl 0) && decide (minVolume < jsOr t.vol 0)

/-- Source: `traderMap.has(t.proxyWallet)` for the wallet-keyed `Map`,
modelled as an insertion-ordered list. -/
def hasWallet (m : List TraderRecord) (w : String) : Bool :=
  m.any (fun u => u.proxyWallet == w)

/-- One step of the loop
`if (!traderMap.has(t.proxyWallet) && (t.pnl || 0) > 0 && (t.vol || 0) > 50000)
   traderMap.set(t.proxyWallet, t)`;
appending at the end models the `Map`'s insertion iteration order. -/
def insertTrader (minVolume : ℚ) (m : List TraderRecord) (t : TraderRecord) :
    List TraderRecord :=
  if !hasWallet m t.proxyWallet && qualifies minVolume t then m ++ [t] else m

/-- Source (part_000 lines 42-47):
`for (const t of [...allTime, ...monthly, ...weekly]) { ... }` followed by
`Array.from(traderMap.values())`. -/
def aggregateTraders (sources : List (List TraderRecord)) (minVolume : ℚ) :
    List TraderRecord :=
  sources.flatten.foldl (insertTrader minVolume) []

/-- Modelled from the spec's words for comparison (spec 4.3 first-seen-wins
policy): keep the first record per wallet, with no filtering interleaved. -/
def firstSeenDedup (l : List TraderRecord) : List TraderRecord :=
  l.foldl (fun m t => if hasWallet m t.proxyWallet then m else m ++ [t]) []

end CopyCandidates

namespace CopyTrader

/-! Embedding of the signal generator in `src/src/copy-trader.js`:
the confidence-tier assignment of `generateSignals` (lines 144-154), the
24-hour re-emission suppression (lines 156-163), and the history trim of
`saveSignals` (lines 53-57). -/

/-- Source: `confidenceThresholds: { high: 0.8, medium: 0.6, low: 0.4 }`. -/
structure ConfidenceThresholds where
  high : ℚ
  medium : ℚ
  low : ℚ
  deriving DecidableEq, Repr

/-- The `CONFIG.confidenceThresholds` constant. -/
def confidenceThresholds : ConfidenceThresholds := ⟨0.8, 0.6, 0.4⟩

/-- Source (lines 145-152): `let confidence = 0;` then the
`traderCount >= 3` / `traderCount >= 2 || totalSize > 50000` /
`totalSize > 10000` chain. -/
def confidence (traderCount : ℕ) (totalSize : ℚ) : ℚ :=
  if 3 ≤ traderCount then confidenceThresholds.high
  else if 2 ≤ traderCount ∨ 50000 < totalSize then confidenceThresholds.medium
  else if 10000 < totalSize then confidenceThresholds.low
  else 0

/-- Source (line 154): a group survives `if (confidence < low) continue`. -/
def emitted (traderCount : ℕ) (totalSize : ℚ) : Prop :=
  ¬(confidence traderCount totalSize < confidenceThresholds.low)

instance (tc : ℕ) (ts : ℚ) : Decidable (emitted tc ts) :=
  inferInstanceAs (Decidable (¬ _ < _))

/-- A persisted signal, reduced to the fields the 24-hour suppression check
reads (`conditionId`, `outcome`, `timestamp` as epoch milliseconds). -/
structure Signal where
  conditionId : String
  outcome : String
  timestamp : ℚ
  deriving DecidableEq, Repr

/-- Source (lines 157-161): `existingSignals.find(s => s.conditionId === ...
&& s.outcome === ... && Date.now() - new Date(s.timestamp).getTime() < 24*60*60*1000)`
is non-null. -/
def recentDuplicate (now : ℚ) (existing : List Signal) (cid oc : String) : Prop :=
  ∃ s ∈ existing, s.conditionId = cid ∧ s.outcome = oc ∧
    now - s.timestamp < 24 * 60 * 60 * 1000

instance (now : ℚ) (existing : List Signal) (cid oc : String) :
    Decidable (recentDuplicate now existing cid oc) :=
  inferInstanceAs (Decidable (∃ s ∈ existing, s.conditionId = cid ∧
    s.outcome = oc ∧ now - s.timestamp < 24 * 60 * 60 * 1000))

/-- Source (lines 53-57): `const trimmed = signals.slice(0, 500)` is what
`saveSignals` persists. -/
def saveSignals (signals : List Signal) : List Signal := signals.take 500

end CopyTrader

namespace SignalsApi

/-- Embedding of the confidence assignment of the serverless signals
endpoint, `src/api/signals.js` line 69:
`let confidence = traderCount >= 2 ? 0.8 : totalSize > 50000 ? 0.6 : 0.4`.
Every group passing the `totalSize < 5000` filter is emitted. -/
def confidence (traderCount : ℕ) (totalSize : ℚ) : ℚ :=
  if 2 ≤ traderCount then 0.8 else if 50000 < totalSize then 0.6 else 0.4

end SignalsApi

/-- One fetched activity record, reduced to the fields the tracker reads:
the raw `timestamp` (seconds or milliseconds) and the `usdcSize`/`size`
amounts (display-only fields such as side/outcome/market are omitted). -/
structure ActivityRecord where
  timestamp : ℚ
  usdcSize : Option ℚ
  size : Option ℚ
  deriving DecidableEq, Repr

/-- The watched-trader entry passed to `checkTraderActivity`, reduced to
the identity fields the tracking logic reads. -/
structure TraderRef where
  wallet : String
  userName : String
  deriving DecidableEq, Repr

/-- An element pushed onto `newTrades` (display-only fields omitted);
`size` is the computed `Math.abs(trade.usdcSize || trade.size || 0)` and
`timestamp` the raw `trade.timestamp`. -/
structure NewTrade where
  wallet : String
  userName : String
  size : ℚ
  timestamp : ℚ
  deriving DecidableEq, Repr

/-- The persisted watcher state: the per-wallet `lastSeen` watermark map
(insertion-ordered association list) and, for the Cloud Run variant of
`src/unnamed/part_003`, the optional `initialized` seed (`initTime` here);
`whale-watcher.js`'s state has no such field (`none`). The `watchlist`
member is not read by the tracking logic and is omitted. -/
structure WatchState where
  lastSeen : List (String × ℚ)
  initTime : Option ℚ
  deriving DecidableEq, Repr

/-- Reading `state.lastSeen[wallet]` from the association list. -/
def lookupLastSeen (m : List (String × ℚ)) (w : String) : Option ℚ :=
  (m.find? (fun p => p.1 == w)).map Prod.snd

/-- Writing `state.lastSeen[wallet] = v`: the new binding shadows (and here
replaces) any previous binding for the wallet. -/
def setLastSeen (m : List (String × ℚ)) (w : String) (v : ℚ) :
    List (String × ℚ) :=
  (w, v) :: m.filter (fun p => p.1 != w)

/-- Source: `Math.abs(trade.usdcSize || trade.size || 0)`. -/
def absSize (tr : ActivityRecord) : ℚ := |jsOr tr.usdcSize (jsOr tr.size 0)|

/-- The record pushed onto `newTrades` for a passing activity record. -/
def mkNewTrade (trader : TraderRef) (tr : ActivityRecord) : NewTrade :=
  { wallet := trader.wallet, userName := trader.userName,
    size := absSize tr, timestamp := tr.timestamp }

namespace WhaleWatcher

/-! Embedding of `checkTraderActivity` from `src/src/whale-watcher.js`
(lines 119-164; `src/unnamed/part_004` lines 121-160 are identical).
`CONFIG.minTradeSize` (10000 in source) is the `minTradeSize` parameter.
The fetched activity is `none` when `fetchActivity` throws (the `catch`
path) and `some acts` otherwise. -/

/-- Source (line 129): `new Date(trade.timestamp).getTime()`, which is the
identity on a numeric epoch-milliseconds value. -/
def tradeTime (ts : ℚ) : ℚ := ts

/-- Source (line 125): `const lastSeen = state.lastSeen[trader.wallet] || 0`. -/
def effLastSeen (state : WatchState) (w : String) : ℚ :=
  jsOr (lookupLastSeen state.lastSeen w) 0

/-- Source (line 154): `Math.max(...activity.map(t => new Date(t.timestamp).getTime()))`
over the non-empty fetched page. -/
def latestTime (a : ActivityRecord) (rest : List ActivityRecord) : ℚ :=
  rest.foldl (fun m t => max m (tradeTime t.timestamp)) (tradeTime a.timestamp)

/-- Source (lines 119-164): the trade loop with its two `continue` guards
(`tradeTime <= lastSeen`, `size < CONFIG.minTradeSize`) followed by the
unconditional `state.lastSeen[trader.wallet] = latestTime` update; the
`catch` and the `!activity || activity.length === 0` guard return `[]`
with the state untouched. -/
def checkTraderActivity (minTradeSize : ℚ) (trader : TraderRef)
    (activity : Option (List ActivityRecord)) (state : WatchState) :
    List NewTrade × WatchState :=
  match activity with
  | none => ([], state)
  | some [] => ([], state)
  | some (a :: rest) =>
    let lastSeen := effLastSeen state trader.wallet
    (((a :: rest).filter (fun tr =>
        lastSeen < tradeTime tr.timestamp ∧ minTradeSize ≤ absSize tr)).map
      (mkNewTrade trader),
     { state with lastSeen := setLastSeen state.lastSeen trader.wallet (latestTime a rest) })

end WhaleWatcher

namespace CloudRun

/-! Embedding of `checkTraderActivity` and the first-run state seeding from
the Cloud Run watcher, `src/unnamed/part_003` (lines 29-36 and 155-199).
`Date.now()` is the explicit `now` parameter. -/

/-- Source (lines 166-168, 188-191): values below `10000000000` are
seconds and are multiplied by 1000 (timestamps are numeric here, so the
`new Date(...)` branch is the identity). -/
def tradeTime (ts : ℚ) : ℚ := if ts < 10000000000 then ts * 1000 else ts

/-- Source (line 161):
`const lastSeen = state.lastSeen[trader.wallet] || state.initialized || Date.now()`. -/
def effLastSeen (state : WatchState) (w : String) (now : ℚ) : ℚ :=
  jsOr (lookupLastSeen state.lastSeen w) (jsOr state.initTime now)

/-- Source (lines 29-36): `loadState` on a missing state file returns
`{ lastSeen: {}, watchlist: [], initialized: Date.now() }`. -/
def freshState (now : ℚ) : WatchState := { lastSeen := [], initTime := some now }

/-- Source (lines 188-191): `Math.max` over the normalized timestamps of
the non-empty fetched page. -/
def latestTime (a : ActivityRecord) (rest : List ActivityRecord) : ℚ :=
  rest.foldl (fun m t => max m (tradeTime t.timestamp)) (tradeTime a.timestamp)

/-- Source (lines 155-199): trade loop with the `tradeTime <= lastSeen` and
`size < CONFIG.minTradeSize` guards, then the unconditional
`state.lastSeen[trader.wallet] = latestTime` update; the `catch` path and
the empty-page guard return `[]` with the state untouched. -/
def checkTraderActivity (minTradeSize now : ℚ) (trader : TraderRef)
    (activity : Option (List ActivityRecord)) (state : WatchState) :
    List NewTrade × WatchState :=
  match activity with
  | none => ([], state)
  | some [] => ([], state)
  | some (a :: rest) =>
    let lastSeen := effLastSeen state trader.wallet now
    (((a :: rest).filter (fun tr =>
        lastSeen < tradeTime tr.timestamp ∧ minTradeSize ≤ absSize tr)).map
      (mkNewTrade trader),
     { state with lastSeen := setLastSeen state.lastSeen trader.wallet (latestTime a rest) })

/-- Source (part_003 lines 47-50 and whale-watcher.js lines 63-67):
`const trimmed = activity.slice(0, 1000)` is what `saveActivity` persists. -/
def saveActivity (activity : List NewTrade) : List NewTrade := activity.take 1000

end CloudRun

/-! Theorems. -/

/-- Updating a wallet's watermark makes the new value the one read back. -/
theorem lookupLastSeen_setLastSeen (m : List (String × ℚ)) (w : String) (v : ℚ) :
    lookupLastSeen (setLastSeen m w v) w = some v := by
  simp [lookupLastSeen, setLastSeen, List.find?_cons_of_pos]

/-- The initial value is below a `Math.max`-style fold. -/
theorem le_foldl_max_init (f : ActivityRecord → ℚ) (l : List ActivityRecord) :
    ∀ init : ℚ, init ≤ l.foldl (fun m t => max m (f t)) init := by
  induction l with
  | nil => intro init; simp
  | cons a l ih =>
    intro init
    exact le_trans (le_max_left _ _) (ih (max init (f a)))

/-- Every listed value is below a `Math.max`-style fold. -/
theorem le_foldl_max_mem (f : ActivityRecord → ℚ) (l : List ActivityRecord) :
    ∀ (init : ℚ) (x : ActivityRecord), x ∈ l →
      f x ≤ l.foldl (fun m t => max m (f t)) init := by
  induction l with
  | nil => simp
  | cons a l ih =>
    intro init x hx
    rcases List.mem_cons.mp hx with rfl | hx
    · exact le_trans (le_max_right init (f x)) (le_foldl_max_init f l _)
    · exact ih _ x hx

/-- Soundness of the Cloud Run trade loop: every returned trade passed both
`continue` guards. -/
theorem cloudRun_newTrades_mem (mts now : ℚ) (trader : TraderRef)
    (acts : List ActivityRecord) (state : WatchState) :
    ∀ nt ∈ (CloudRun.checkTraderActivity mts now trader (some acts) state).1,
      CloudRun.effLastSeen state trader.wallet now < CloudRun.tradeTime nt.timestamp
      ∧ mts ≤ nt.size := by
  cases acts with
  | nil => simp [CloudRun.checkTraderActivity]
  | cons a rest =>
    intro nt hnt
    simp only [CloudRun.checkTraderActivity, List.mem_map, List.mem_filter,
      decide_eq_true_eq] at hnt
    obtain ⟨tr, ⟨_, hts, hsz⟩, rfl⟩ := hnt
    exact ⟨hts, hsz⟩

/-- Completeness of the Cloud Run trade loop: every fetched record passing
both guards is returned. -/
theorem cloudRun_newTrades_complete (mts now : ℚ) (trader : TraderRef)
    (acts : List ActivityRecord) (state : WatchState) :
    ∀ tr ∈ acts,
      CloudRun.effLastSeen state trader.wallet now < CloudRun.tradeTime tr.timestamp →
      mts ≤ absSize tr →
      mkNewTrade trader tr
        ∈ (CloudRun.checkTraderActivity mts now trader (some acts) state).1 := by
  cases acts with
  | nil => simp
  | cons a rest =>
    intro tr htr hts hsz
    simp only [CloudRun.checkTraderActivity, List.mem_map]
    exact ⟨tr, List.mem_filter.mpr
      ⟨htr, by simp only [decide_eq_true_eq]; exact ⟨hts, hsz⟩⟩, rfl⟩

/-- Soundness of the whale-watcher trade loop. -/
theorem whaleWatcher_newTrades_mem (mts : ℚ) (trader : TraderRef)
    (acts : List ActivityRecord) (state : WatchState) :
    ∀ nt ∈ (WhaleWatcher.checkTraderActivity mts trader (some acts) state).1,
      WhaleWatcher.effLastSeen state trader.wallet
          < WhaleWatcher.tradeTime nt.timestamp
      ∧ mts ≤ nt.size := by
  cases acts with
  | nil => simp [WhaleWatcher.checkTraderActivity]
  | cons a rest =>
    intro nt hnt
    simp only [WhaleWatcher.checkTraderActivity, List.mem_map, List.mem_filter,
      decide_eq_true_eq] at hnt
    obtain ⟨tr, ⟨_, hts, hsz⟩, rfl⟩ := hnt
    exact ⟨hts, hsz⟩

/-- Completeness of the whale-watcher trade loop. -/
theorem whaleWatcher_newTrades_complete (mts : ℚ) (trader : TraderRef)
    (acts : List ActivityRecord) (state : WatchState) :
    ∀ tr ∈ acts,
      WhaleWatcher.effLastSeen state trader.wallet
          < WhaleWatcher.tradeTime tr.timestamp →
      mts ≤ absSize tr →
      mkNewTrade trader tr
        ∈ (WhaleWatcher.checkTraderActivity mts trader (some acts) state).1 := by
  cases acts with
  | nil => simp
  | cons a rest =>
    intro tr htr hts hsz
    simp only [WhaleWatcher.checkTraderActivity, List.mem_map]
    exact ⟨tr, List.mem_filter.mpr
      ⟨htr, by simp only [decide_eq_true_eq]; exact ⟨hts, hsz⟩⟩, rfl⟩

/-- C3: in both watcher variants, the new-trade list returned for a fetched
page is exactly the set of records whose (normalized) timestamp is strictly
greater than the watermark passed in and whose absolute size
(`usdcSize` or `size`, defaulting to 0) is at least the minimum trade size;
in particular no returned trade has a timestamp at or below the watermark. -/
theorem checkTraderActivity_filter (mts now : ℚ) (trader : TraderRef)
    (acts : List ActivityRecord) (state : WatchState) :
    (∀ nt ∈ (CloudRun.checkTraderActivity mts now trader (some acts) state).1,
        CloudRun.effLastSeen state trader.wallet now < CloudRun.tradeTime nt.timestamp
        ∧ mts ≤ nt.size)
    ∧ (∀ tr ∈ acts,
        CloudRun.effLastSeen state trader.wallet now < CloudRun.tradeTime tr.timestamp →
        mts ≤ absSize tr →
        mkNewTrade trader tr
          ∈ (CloudRun.checkTraderActivity mts now trader (some acts) state).1)
    ∧ (∀ nt ∈ (WhaleWatcher.checkTraderActivity mts trader (some acts) state).1,
        WhaleWatcher.effLastSeen state trader.wallet
            < WhaleWatcher.tradeTime nt.timestamp
        ∧ mts ≤ nt.size)
    ∧ (∀ tr ∈ acts,
        WhaleWatcher.effLastSeen state trader.wallet
            < WhaleWatcher.tradeTime tr.timestamp →
        mts ≤ absSize tr →
        mkNewTrade trader tr
          ∈ (WhaleWatcher.checkTraderActivity mts trader (some acts) state).1) :=
  ⟨cloudRun_newTrades_mem mts now trader acts state,
   cloudRun_newTrades_complete mts now trader acts state,
   whaleWatcher_newTrades_mem mts trader acts state,
   whaleWatcher_newTrades_complete mts trader acts state⟩

/-- Witness for `checkTraderActivity_filter`: on a fresh state, a large
fresh trade is returned. -/
theorem checkTraderActivity_filter_witness :
    mkNewTrade ⟨"0xw", "whale"⟩ ⟨20000000000, some 20000, none⟩
      ∈ (CloudRun.checkTraderActivity 10000 0 ⟨"0xw", "whale"⟩
          (some [⟨20000000000, some 20000, none⟩]) ⟨[], none⟩).1 :=
  (checkTraderActivity_filter 10000 0 ⟨"0xw", "whale"⟩
      [⟨20000000000, some 20000, none⟩] ⟨[], none⟩).2.1
    ⟨20000000000, some 20000, none⟩ (by simp)
    (by norm_num [CloudRun.effLastSeen, CloudRun.tradeTime, lookupLastSeen, jsOr])
    (by norm_num [absSize, jsOr])

/-- C2 (amended): after a non-empty fetched page, the wallet's stored
watermark equals the maximum of the fetched records' normalized timestamps;
this update is independent of the size threshold (so filtering every record
out by size does not change it), and the watermark does not decrease
provided some fetched record's normalized timestamp is at or above the old
value — but it is not unconditionally non-decreasing. -/
theorem watermark_update (mts mts2 now : ℚ) (trader : TraderRef)
    (a : ActivityRecord) (rest : List ActivityRecord) (state : WatchState)
    (old : ℚ) :
    lookupLastSeen
        ((CloudRun.checkTraderActivity mts now trader (some (a :: rest)) state).2).lastSeen
        trader.wallet
      = some (CloudRun.latestTime a rest)
    ∧ (CloudRun.checkTraderActivity mts now trader (some (a :: rest)) state).2
      = (CloudRun.checkTraderActivity mts2 now trader (some (a :: rest)) state).2
    ∧ ((∃ tr ∈ a :: rest, old ≤ CloudRun.tradeTime tr.timestamp) →
        old ≤ CloudRun.latestTime a rest) := by
  refine ⟨?_, rfl, ?_⟩
  · exact lookupLastSeen_setLastSeen _ _ _
  · rintro ⟨tr, htr, hle⟩
    rcases List.mem_cons.mp htr with rfl | htr
    · exact hle.trans (le_foldl_max_init _ rest _)
    · exact hle.trans (le_foldl_max_mem _ rest _ tr htr)

/-- Witness for `watermark_update` at a one-record page. -/
theorem watermark_update_witness :
    (10 : ℚ) ≤ CloudRun.latestTime ⟨20000000000, some 20000, none⟩ [] :=
  (watermark_update 10000 9999 0 ⟨"0xw", "whale"⟩ ⟨20000000000, some 20000, none⟩
      [] ⟨[], none⟩ 10).2.2
    ⟨⟨20000000000, some 20000, none⟩, by simp,
      by norm_num [CloudRun.tradeTime]⟩

/-- C2 counterexample: with a stored watermark of 2000000000000 ms and a
fetched page whose single record has normalized timestamp 20000000000 ms,
the new watermark is 20000000000, strictly below the watermark before the
call — the per-wallet watermark is not monotonically non-decreasing. -/
theorem watermark_moves_backwards :
    lookupLastSeen
        ((CloudRun.checkTraderActivity 10000 0 ⟨"0xw", "whale"⟩
            (some [⟨20000000000, some 20000, none⟩])
            ⟨[("0xw", 2000000000000)], none⟩).2).lastSeen "0xw"
      = some 20000000000
    ∧ lookupLastSeen ([("0xw", 2000000000000)] : List (String × ℚ)) "0xw"
      = some 2000000000000
    ∧ (20000000000 : ℚ) < 2000000000000 := by
  refine ⟨?_, ?_, by norm_num⟩
  · have h : CloudRun.latestTime ⟨20000000000, some 20000, none⟩ [] = 20000000000 := by
      norm_num [CloudRun.latestTime, CloudRun.tradeTime]
    have h2 := lookupLastSeen_setLastSeen [("0xw", (2000000000000 : ℚ))] "0xw"
      (CloudRun.latestTime ⟨20000000000, some 20000, none⟩ [])
    rw [h] at h2
    exact h2
  · rfl

/-- C7 (amended): the Cloud Run watcher (`src/unnamed/part_003`) seeds a
wallet's first-ever poll from the stored initialization timestamp (set to
"now" when the state file is first created), so no trade at or before that
seed is returned; the standalone `whale-watcher.js` instead seeds with 0
and does return historical backlog trades on a first poll. -/
theorem first_poll_seed (mts now tInit : ℚ) (trader : TraderRef)
    (acts : List ActivityRecord) (state : WatchState)
    (hnone : lookupLastSeen state.lastSeen trader.wallet = none)
    (hinit : state.initTime = some tInit) (hne : tInit ≠ 0) :
    CloudRun.effLastSeen state trader.wallet now = tInit
    ∧ (∀ n m : ℚ, n ≠ 0 → ∀ w : String,
        CloudRun.effLastSeen (CloudRun.freshState n) w m = n)
    ∧ ∀ nt ∈ (CloudRun.checkTraderActivity mts now trader (some acts) state).1,
        tInit < CloudRun.tradeTime nt.timestamp := by
  have heff : CloudRun.effLastSeen state trader.wallet now = tInit := by
    simp [CloudRun.effLastSeen, hnone, hinit, jsOr, hne]
  refine ⟨heff, ?_, ?_⟩
  · intro n m hn w
    simp [CloudRun.effLastSeen, CloudRun.freshState, lookupLastSeen, jsOr, hn]
  · intro nt hnt
    have := (cloudRun_newTrades_mem mts now trader acts state nt hnt).1
    rwa [heff] at this

/-- Witness for `first_poll_seed` on a state initialized at time 5000000. -/
theorem first_poll_seed_witness :
    CloudRun.effLastSeen ⟨[], some 5000000⟩ "0xw" 0 = 5000000 :=
  (first_poll_seed 10000 0 5000000 ⟨"0xw", "whale"⟩ [] ⟨[], some 5000000⟩
      rfl rfl (by norm_num)).1

/-- C7 counterexample: `whale-watcher.js` (line 125) seeds a first-ever
poll with watermark 0, not an initialization timestamp, so a historical
backlog trade (timestamp 1000000 ms, about 1970) is returned as new. -/
theorem first_poll_returns_backlog :
    WhaleWatcher.effLastSeen ⟨[], none⟩ "0xw" = 0
    ∧ (WhaleWatcher.checkTraderActivity 10000 ⟨"0xw", "whale"⟩
        (some [⟨1000000, some 20000, none⟩]) ⟨[], none⟩).1
      = [⟨"0xw", "whale", 20000, 1000000⟩] := by
  constructor
  · rfl
  · norm_num [WhaleWatcher.checkTraderActivity, WhaleWatcher.effLastSeen,
      WhaleWatcher.tradeTime, lookupLastSeen, absSize, jsOr, mkNewTrade]

/-- C10: if fetching a trader's activity throws (modelled by `none`) or
returns an empty/absent list, `checkTraderActivity` returns an empty list
of new trades and returns the state unchanged — in particular the wallet's
last-seen watermark entry is untouched — in both watcher variants. -/
theorem checkTraderActivity_error_path (mts now : ℚ) (trader : TraderRef)
    (state : WatchState) :
    CloudRun.checkTraderActivity mts now trader none state = ([], state)
    ∧ CloudRun.checkTraderActivity mts now trader (some []) state = ([], state)
    ∧ WhaleWatcher.checkTraderActivity mts trader none state = ([], state)
    ∧ WhaleWatcher.checkTraderActivity mts trader (some []) state = ([], state) :=
  ⟨rfl, rfl, rfl, rfl⟩

/-- C9: every save of the signal history keeps exactly the first (most
recent, since new signals are prepended) 500 signals, every save of the
whale-activity history keeps the first 1000 entries, and the 24-hour
same-(conditionId, outcome) suppression over a saved history only ever
finds one of those at most 500 saved signals. -/
theorem history_bounded (signals : List CopyTrader.Signal)
    (activity : List NewTrade) :
    (CopyTrader.saveSignals signals).length ≤ 500
    ∧ CopyTrader.saveSignals signals = signals.take 500
    ∧ (CloudRun.saveActivity activity).length ≤ 1000
    ∧ CloudRun.saveActivity activity = activity.take 1000
    ∧ (∀ now : ℚ, ∀ cid oc : String,
        CopyTrader.recentDuplicate now (CopyTrader.saveSignals signals) cid oc →
          ∃ s ∈ signals.take 500, s.conditionId = cid ∧ s.outcome = oc ∧
            now - s.timestamp < 24 * 60 * 60 * 1000) := by
  refine ⟨?_, rfl, ?_, rfl, ?_⟩
  · simp only [CopyTrader.saveSignals, List.length_take]
    omega
  · simp only [CloudRun.saveActivity, List.length_take]
    omega
  · intro now cid oc h
    exact h

/-- Witness for `history_bounded` at a concrete one-signal history. -/
theorem history_bounded_witness :
    ∃ s ∈ ([⟨"c1", "Yes", 1000⟩] : List CopyTrader.Signal).take 500,
      s.conditionId = "c1" ∧ s.outcome = "Yes" ∧
        (2000 : ℚ) - s.timestamp < 24 * 60 * 60 * 1000 :=
  (history_bounded [⟨"c1", "Yes", 1000⟩] []).2.2.2.2 2000 "c1" "Yes"
    ⟨⟨"c1", "Yes", 1000⟩, by simp [CopyTrader.saveSignals], rfl, rfl, by norm_num⟩

/-- C4 (amended): the edge scorers (`src/api/edge-traders.js`,
`src/src/index.js`, `src/unnamed/part_002`) compute
`totalWins/totalLosses` when `totalLosses > 0`, the sentinel 10 when
`totalLosses = 0` and `totalWins > 0`, and 1 when both are 0, while the
copy-candidate handler (`src/unnamed/part_000`) returns 10 whenever
`totalLosses = 0`, including the zero-wins case — the policy is not the
same in every caller. -/
theorem profitFactor_policy (cps : List ClosedPosition) :
    (0 < EdgeScorer.totalLosses cps →
      EdgeScorer.profitFactor cps
          = EdgeScorer.totalWins cps / EdgeScorer.totalLosses cps
        ∧ CopyCandidates.profitFactor cps
          = EdgeScorer.totalWins cps / EdgeScorer.totalLosses cps)
    ∧ (EdgeScorer.totalLosses cps = 0 → 0 < EdgeScorer.totalWins cps →
      EdgeScorer.profitFactor cps = 10 ∧ CopyCandidates.profitFactor cps = 10)
    ∧ (EdgeScorer.totalLosses cps = 0 → EdgeScorer.totalWins cps = 0 →
      EdgeScorer.profitFactor cps = 1 ∧ CopyCandidates.profitFactor cps = 10) := by
  unfold EdgeScorer.profitFactor CopyCandidates.profitFactor
  refine ⟨fun h => ?_, fun h h2 => ?_, fun h h2 => ?_⟩ <;> simp_all

/-- Witness for `profitFactor_policy` on a history with one win and one
loss. -/
theorem profitFactor_policy_witness :
    EdgeScorer.profitFactor ([⟨100⟩, ⟨-50⟩] : List ClosedPosition)
        = EdgeScorer.totalWins ([⟨100⟩, ⟨-50⟩] : List ClosedPosition)
          / EdgeScorer.totalLosses ([⟨100⟩, ⟨-50⟩] : List ClosedPosition)
      ∧ CopyCandidates.profitFactor ([⟨100⟩, ⟨-50⟩] : List ClosedPosition)
        = EdgeScorer.totalWins ([⟨100⟩, ⟨-50⟩] : List ClosedPosition)
          / EdgeScorer.totalLosses ([⟨100⟩, ⟨-50⟩] : List ClosedPosition) :=
  (profitFactor_policy [⟨100⟩, ⟨-50⟩]).1
    (by norm_num [EdgeScorer.totalLosses, EdgeScorer.losses, List.filter])

/-- C4 counterexample: on an empty closed-position list (no wins, no
losses) the edge scorers give the neutral value 1 but the copy-candidate
handler gives the sentinel 10, so the zero-loss policy is not the same in
every caller. -/
theorem profitFactor_callers_disagree :
    EdgeScorer.profitFactor [] = 1 ∧ CopyCandidates.profitFactor [] = 10
      ∧ (1 : ℚ) ≠ 10 := by
  refine ⟨?_, ?_, by norm_num⟩
  · simp [EdgeScorer.profitFactor, EdgeScorer.totalLosses, EdgeScorer.totalWins,
      EdgeScorer.losses, EdgeScorer.wins]
  · simp [CopyCandidates.profitFactor, EdgeScorer.totalLosses, EdgeScorer.losses]

/-- The `trader.vol || 1` default can never be zero, so the efficiency
division is well defined. -/
theorem volume_pos (t : TraderRecord) (h : 0 ≤ EdgeScorer.volume t) :
    0 < EdgeScorer.volume t := by
  have hv0 : EdgeScorer.volume t ≠ 0 := by
    unfold EdgeScorer.volume jsOr
    cases t.vol with
    | none =>
      change (1 : ℚ) ≠ 0
      norm_num
    | some v =>
      change (if v = 0 then (1 : ℚ) else v) ≠ 0
      split_ifs with h0
      · norm_num
      · exact h0
  exact lt_of_le_of_ne h (Ne.symm hv0)

/-- A running sum over nonnegative contributions stays nonnegative. -/
theorem foldl_add_nonneg (l : List ClosedPosition)
    (hl : ∀ p ∈ l, 0 ≤ p.realizedPnl) :
    ∀ s : ℚ, 0 ≤ s → 0 ≤ l.foldl (fun s p => s + p.realizedPnl) s := by
  induction l with
  | nil => intro s hs; exact hs
  | cons a l ih =>
    intro s hs
    exact ih (fun p hp => hl p (List.mem_cons_of_mem a hp)) _
      (add_nonneg hs (hl a (List.mem_cons_self a l)))

/-- Gross wins are a sum of strictly positive realized amounts. -/
theorem totalWins_nonneg (cps : List ClosedPosition) :
    0 ≤ EdgeScorer.totalWins cps := by
  refine foldl_add_nonneg _ ?_ 0 le_rfl
  intro p hp
  have := List.mem_filter.mp hp
  simp only [decide_eq_true_eq] at this
  exact le_of_lt this.2

/-- The win rate is a proper fraction (0.5 on an empty record). -/
theorem winRate_bounds (cps : List ClosedPosition) :
    0 ≤ EdgeScorer.winRate cps ∧ EdgeScorer.winRate cps ≤ 1 := by
  unfold EdgeScorer.winRate
  split_ifs with h
  · have hpos : (0 : ℚ) < (EdgeScorer.totalTrades cps : ℚ) := by exact_mod_cast h
    constructor
    · positivity
    · rw [div_le_one hpos]
      exact_mod_cast Nat.le_add_right _ _
  · norm_num

/-- The profit factor is nonnegative in all three cases. -/
theorem profitFactor_nonneg (cps : List ClosedPosition) :
    0 ≤ EdgeScorer.profitFactor cps := by
  unfold EdgeScorer.profitFactor
  split_ifs with h1 h2
  · exact div_nonneg (totalWins_nonneg cps) (le_of_lt h1)
  · norm_num
  · norm_num

/-- C1 (amended): for a trader with nonnegative `pnl` and nonnegative
volume, all five sub-scores lie in [0, 100] and so does the edge score;
the code, however, clamps only from above (`Math.min(..., 100)`), so with
a negative `pnl` the efficiency sub-score — and with it the edge score —
can be negative (see the counterexample). -/
theorem edgeScore_bounds (t : TraderRecord) (cps : List ClosedPosition)
    (hpnl : 0 ≤ EdgeScorer.pnl t) (hvol : 0 ≤ EdgeScorer.volume t) :
    (0 ≤ EdgeScorer.efficiencyScore t ∧ EdgeScorer.efficiencyScore t ≤ 100)
    ∧ (0 ≤ EdgeScorer.winRateScore cps ∧ EdgeScorer.winRateScore cps ≤ 100)
    ∧ (0 ≤ EdgeScorer.profitFactorScore cps
        ∧ EdgeScorer.profitFactorScore cps ≤ 100)
    ∧ (0 ≤ EdgeScorer.consistencyScore cps
        ∧ EdgeScorer.consistencyScore cps ≤ 100)
    ∧ (0 ≤ EdgeScorer.sizeScore t ∧ EdgeScorer.sizeScore t ≤ 100)
    ∧ (0 ≤ EdgeScorer.edgeScore t cps ∧ EdgeScorer.edgeScore t cps ≤ 100) := by
  have heff : 0 ≤ EdgeScorer.efficiency t := div_nonneg hpnl hvol
  have he : 0 ≤ EdgeScorer.efficiencyScore t ∧ EdgeScorer.efficiencyScore t ≤ 100 := by
    unfold EdgeScorer.efficiencyScore
    exact ⟨le_min (by positivity) (by norm_num), min_le_right _ _⟩
  have hw : 0 ≤ EdgeScorer.winRateScore cps ∧ EdgeScorer.winRateScore cps ≤ 100 := by
    obtain ⟨h1, h2⟩ := winRate_bounds cps
    unfold EdgeScorer.winRateScore
    constructor
    · positivity
    · nlinarith
  have hp : 0 ≤ EdgeScorer.profitFactorScore cps
      ∧ EdgeScorer.profitFactorScore cps ≤ 100 := by
    unfold EdgeScorer.profitFactorScore
    refine ⟨le_min ?_ (by norm_num), min_le_right _ _⟩
    have := profitFactor_nonneg cps
    positivity
  have hc : 0 ≤ EdgeScorer.consistencyScore cps
      ∧ EdgeScorer.consistencyScore cps ≤ 100 := by
    unfold EdgeScorer.consistencyScore
    split_ifs with h
    · norm_num
    · have h20 : (EdgeScorer.totalTrades cps : ℚ) ≤ 20 := by
        exact_mod_cast Nat.le_of_not_lt h
      constructor
      · positivity
      · nlinarith
  have hs : 0 ≤ EdgeScorer.sizeScore t ∧ EdgeScorer.sizeScore t ≤ 100 := by
    unfold EdgeScorer.sizeScore
    refine ⟨le_min ?_ (by norm_num), min_le_right _ _⟩
    have hv : (1 : ℝ) ≤ (EdgeScorer.volume t : ℝ) + 1 := by
      have : (0 : ℝ) ≤ (EdgeScorer.volume t : ℝ) := by exact_mod_cast hvol
      linarith
    have := Real.logb_nonneg (by norm_num : (1 : ℝ) < 10) hv
    positivity
  refine ⟨he, hw, hp, hc, hs, ?_, ?_⟩
  · unfold EdgeScorer.edgeScore
    have e1 : (0 : ℝ) ≤ (EdgeScorer.efficiencyScore t : ℝ) := by exact_mod_cast he.1
    have w1 : (0 : ℝ) ≤ (EdgeScorer.winRateScore cps : ℝ) := by exact_mod_cast hw.1
    have p1 : (0 : ℝ) ≤ (EdgeScorer.profitFactorScore cps : ℝ) := by
      exact_mod_cast hp.1
    have c1 : (0 : ℝ) ≤ (EdgeScorer.consistencyScore cps : ℝ) := by
      exact_mod_cast hc.1
    have s1 := hs.1
    nlinarith
  · unfold EdgeScorer.edgeScore
    have e2 : (EdgeScorer.efficiencyScore t : ℝ) ≤ 100 := by exact_mod_cast he.2
    have w2 : (EdgeScorer.winRateScore cps : ℝ) ≤ 100 := by exact_mod_cast hw.2
    have p2 : (EdgeScorer.profitFactorScore cps : ℝ) ≤ 100 := by
      exact_mod_cast hp.2
    have c2 : (EdgeScorer.consistencyScore cps : ℝ) ≤ 100 := by
      exact_mod_cast hc.2
    have s2 := hs.2
    nlinarith

/-- Witness for `edgeScore_bounds` at pnl 50000, volume 100000, no closed
positions. -/
theorem edgeScore_bounds_witness :
    0 ≤ EdgeScorer.edgeScore ⟨"0xb", some 50000, some 100000⟩ []
    ∧ EdgeScorer.edgeScore ⟨"0xb", some 50000, some 100000⟩ [] ≤ 100 :=
  (edgeScore_bounds ⟨"0xb", some 50000, some 100000⟩ []
    (by norm_num [EdgeScorer.pnl, jsOr])
    (by norm_num [EdgeScorer.volume, jsOr])).2.2.2.2.2

/-- C1 counterexample: the trader with pnl -9990 and volume 999 has
efficiency -10, so the efficiency sub-score `min(-10 * 200, 100) = -2000`
is not clamped to [0, 100], and the resulting edge score is negative
(it is -579), outside [0, 100]. -/
theorem edgeScore_not_clamped :
    EdgeScorer.efficiencyScore ⟨"0xa", some (-9990), some 999⟩ = -2000
    ∧ EdgeScorer.edgeScore ⟨"0xa", some (-9990), some 999⟩ [] < 0 := by
  have heff : EdgeScorer.efficiency ⟨"0xa", some (-9990), some 999⟩ = -10 := by
    norm_num [EdgeScorer.efficiency, EdgeScorer.pnl, EdgeScorer.volume, jsOr]
  have hes : EdgeScorer.efficiencyScore ⟨"0xa", some (-9990), some 999⟩ = -2000 := by
    rw [EdgeScorer.efficiencyScore, heff]
    norm_num [min_def]
  refine ⟨hes, ?_⟩
  have hwr : EdgeScorer.winRateScore [] = 50 := by
    norm_num [EdgeScorer.winRateScore, EdgeScorer.winRate, EdgeScorer.totalTrades,
      EdgeScorer.wins, EdgeScorer.losses]
  have hpf : EdgeScorer.profitFactorScore [] = 20 := by
    norm_num [EdgeScorer.profitFactorScore, EdgeScorer.profitFactor,
      EdgeScorer.totalWins, EdgeScorer.totalLosses, EdgeScorer.wins,
      EdgeScorer.losses, min_def]
  have hcs : EdgeScorer.consistencyScore [] = 0 := by
    norm_num [EdgeScorer.consistencyScore, EdgeScorer.totalTrades,
      EdgeScorer.wins, EdgeScorer.losses]
  have hlogb : Real.logb 10 1000 = 3 := by
    rw [show (1000 : ℝ) = 10 ^ (3 : ℕ) by norm_num, Real.logb_pow,
      Real.logb_self_eq_one (by norm_num)]
    norm_num
  have hss : EdgeScorer.sizeScore ⟨"0xa", some (-9990), some 999⟩ = 45 := by
    have hv : ((EdgeScorer.volume ⟨"0xa", some (-9990), some 999⟩ : ℚ) : ℝ) + 1
        = 1000 := by
      norm_num [EdgeScorer.volume, jsOr]
    rw [EdgeScorer.sizeScore, hv, hlogb]
    norm_num [min_def]
  rw [EdgeScorer.edgeScore, hes, hwr, hpf, hcs, hss]
  norm_num

/-- A wallet is found by `traderMap.has` exactly when some kept record
carries it. -/
theorem hasWallet_eq_true (m : List TraderRecord) (w : String) :
    CopyCandidates.hasWallet m w = true ↔ w ∈ m.map (·.proxyWallet) := by
  simp [CopyCandidates.hasWallet, List.any_eq_true, List.mem_map]

/-- The insert-if-new-and-qualifying fold equals the insert-if-new fold
over the pre-filtered stream. -/
theorem foldl_insert_filter (mv : ℚ) (l : List TraderRecord) :
    ∀ m : List TraderRecord,
      l.foldl (CopyCandidates.insertTrader mv) m
        = (l.filter (CopyCandidates.qualifies mv)).foldl
            (fun m t => if CopyCandidates.hasWallet m t.proxyWallet then m
              else m ++ [t]) m := by
  induction l with
  | nil => intro m; rfl
  | cons a l ih =>
    intro m
    cases hq : CopyCandidates.qualifies mv a with
    | false =>
      have hstep : CopyCandidates.insertTrader mv m a = m := by
        simp [CopyCandidates.insertTrader, hq]
      rw [List.foldl_cons, hstep, List.filter_cons_of_neg (by simp [hq])]
      exact ih m
    | true =>
      have hstep : CopyCandidates.insertTrader mv m a
          = if CopyCandidates.hasWallet m a.proxyWallet then m else m ++ [a] := by
        cases h : CopyCandidates.hasWallet m a.proxyWallet <;>
          simp [CopyCandidates.insertTrader, hq, h]
      rw [List.foldl_cons, hstep, List.filter_cons_of_pos (by simp [hq]),
        List.foldl_cons]
      exact ih _

/-- Every record the aggregation fold adds beyond its accumulator passed
the profitability/volume filter. -/
theorem mem_foldl_insert (mv : ℚ) (l : List TraderRecord) :
    ∀ (m : List TraderRecord) (t : TraderRecord),
      t ∈ l.foldl (CopyCandidates.insertTrader mv) m →
        t ∈ m ∨ CopyCandidates.qualifies mv t = true := by
  induction l with
  | nil => intro m t ht; exact Or.inl ht
  | cons a l ih =>
    intro m t ht
    rcases ih _ t ht with h | h
    · by_cases hc : (!CopyCandidates.hasWallet m a.proxyWallet
          && CopyCandidates.qualifies mv a) = true
      · rw [CopyCandidates.insertTrader, if_pos hc] at h
        rcases List.mem_append.mp h with h | h
        · exact Or.inl h
        · have ha : t = a := List.mem_singleton.mp h
          subst ha
          have hc2 := hc
          simp only [Bool.and_eq_true] at hc2
          exact Or.inr hc2.2
      · rw [CopyCandidates.insertTrader, if_neg hc] at h
        exact Or.inl h
    · exact Or.inr h

/-- The aggregation fold keeps wallet keys duplicate-free. -/
theorem wallets_nodup_foldl (mv : ℚ) (l : List TraderRecord) :
    ∀ m : List TraderRecord, (m.map (·.proxyWallet)).Nodup →
      ((l.foldl (CopyCandidates.insertTrader mv) m).map (·.proxyWallet)).Nodup := by
  induction l with
  | nil => intro m hm; exact hm
  | cons a l ih =>
    intro m hm
    apply ih
    by_cases hc : (!CopyCandidates.hasWallet m a.proxyWallet
        && CopyCandidates.qualifies mv a) = true
    · rw [CopyCandidates.insertTrader, if_pos hc]
      have hnot : CopyCandidates.hasWallet m a.proxyWallet = false := by
        have hc2 := hc
        simp only [Bool.and_eq_true] at hc2
        simpa using hc2.1
      have hnotmem : a.proxyWallet ∉ m.map (·.proxyWallet) := by
        rw [← hasWallet_eq_true]
        simp [hnot]
      simp only [List.map_append, List.map_cons, List.map_nil]
      rw [List.nodup_append]
      refine ⟨hm, List.nodup_singleton _, ?_⟩
      intro x hx hx2
      rw [List.mem_singleton] at hx2
      subst hx2
      exact hnotmem hx
    · rw [CopyCandidates.insertTrader, if_neg hc]
      exact hm

/-- On a stream of qualifying records with pairwise-distinct wallets also
fresh for the accumulator, the aggregation fold appends the whole stream. -/
theorem foldl_insert_all (mv : ℚ) (l : List TraderRecord) :
    ∀ m : List TraderRecord,
      (∀ t ∈ l, CopyCandidates.qualifies mv t = true) →
      ((m ++ l).map (·.proxyWallet)).Nodup →
      l.foldl (CopyCandidates.insertTrader mv) m = m ++ l := by
  induction l with
  | nil => intro m _ _; simp
  | cons a l ih =>
    intro m hq hnd
    have hqa : CopyCandidates.qualifies mv a = true := hq a (List.mem_cons_self a l)
    have hnot : CopyCandidates.hasWallet m a.proxyWallet = false := by
      rw [← Bool.not_eq_true, hasWallet_eq_true]
      intro hmem
      have h2 := hnd
      simp only [List.map_append, List.map_cons] at h2
      rw [List.nodup_append] at h2
      exact h2.2.2 hmem (List.mem_cons_self _ _)
    have hstep : CopyCandidates.insertTrader mv m a = m ++ [a] := by
      simp [CopyCandidates.insertTrader, hqa, hnot]
    rw [List.foldl_cons, hstep,
      ih (m ++ [a]) (fun t ht => hq t (List.mem_cons_of_mem a ht))
        (by simpa [List.append_assoc] using hnd)]
    simp

/-- C6 (amended): trader aggregation keeps at most one record per wallet
and only records with `pnl > 0` and volume at least (in fact strictly
above) the threshold; it keeps verbatim the first record of the combined
stream that both carries the wallet and passes the filter — occurrences
failing the filter are skipped entirely (so a later qualifying duplicate
can be kept in their place), and duplicates after the kept record are
dropped unmerged. -/
theorem aggregateTraders_spec (sources : List (List TraderRecord)) (mv : ℚ) :
    CopyCandidates.aggregateTraders sources mv
      = CopyCandidates.firstSeenDedup
          (sources.flatten.filter (CopyCandidates.qualifies mv))
    ∧ ((CopyCandidates.aggregateTraders sources mv).map (·.proxyWallet)).Nodup
    ∧ ∀ t ∈ CopyCandidates.aggregateTraders sources mv,
        0 < jsOr t.pnl 0 ∧ mv ≤ jsOr t.vol 0 := by
  refine ⟨foldl_insert_filter mv sources.flatten [], ?_, ?_⟩
  · exact wallets_nodup_foldl mv sources.flatten [] (by simp)
  · intro t ht
    rcases mem_foldl_insert mv sources.flatten [] t ht with h | h
    · exact absurd h (List.not_mem_nil t)
    · have h2 := h
      simp only [CopyCandidates.qualifies, Bool.and_eq_true, decide_eq_true_eq] at h2
      exact ⟨h2.1, le_of_lt h2.2⟩

/-- Witness for `aggregateTraders_spec` on a single qualifying record. -/
theorem aggregateTraders_spec_witness :
    0 < jsOr (some (50 : ℚ)) 0 ∧ (50000 : ℚ) ≤ jsOr (some 100000) 0 :=
  (aggregateTraders_spec [[⟨"0xw", some 50, some 100000⟩]] 50000).2.2
    ⟨"0xw", some 50, some 100000⟩ (by decide)

/-- C6 counterexample: wallet `0xw` first appears (in processing order)
with a non-qualifying record, and later with a qualifying one; the
aggregation keeps the later record, so the output is neither the verbatim
first-seen record nor empty — first-seen-wins as stated fails. -/
theorem aggregate_keeps_later_duplicate :
    CopyCandidates.aggregateTraders
        [[⟨"0xw", some (-5), some 100000⟩], [⟨"0xw", some 50, some 100000⟩]]
        50000
      = [⟨"0xw", some 50, some 100000⟩]
    ∧ (⟨"0xw", some (-5), some 100000⟩ : TraderRecord)
        ≠ ⟨"0xw", some 50, some 100000⟩ := by
  decide

/-- C8: trader aggregation is idempotent — feeding its output back as a
single source list returns exactly that output. -/
theorem aggregateTraders_idempotent (sources : List (List TraderRecord))
    (mv : ℚ) :
    CopyCandidates.aggregateTraders [CopyCandidates.aggregateTraders sources mv] mv
      = CopyCandidates.aggregateTraders sources mv := by
  have hq : ∀ t ∈ CopyCandidates.aggregateTraders sources mv,
      CopyCandidates.qualifies mv t = true := by
    intro t ht
    rcases mem_foldl_insert mv sources.flatten [] t ht with h | h
    · exact absurd h (List.not_mem_nil t)
    · exact h
  have hnd : ((CopyCandidates.aggregateTraders sources mv).map
      (·.proxyWallet)).Nodup :=
    wallets_nodup_foldl mv sources.flatten [] (by simp)
  show ([CopyCandidates.aggregateTraders sources mv] : List (List TraderRecord)).flatten.foldl
      (CopyCandidates.insertTrader mv) []
    = CopyCandidates.aggregateTraders sources mv
  rw [show ([CopyCandidates.aggregateTraders sources mv] : List (List TraderRecord)).flatten
      = CopyCandidates.aggregateTraders sources mv by simp]
  simpa using foldl_insert_all mv (CopyCandidates.aggregateTraders sources mv) []
    hq (by simpa using hnd)

/-- C5 (amended): the tier table — high at 3 or more distinct traders,
medium at 2 or more traders or totalSize above 50000, low at totalSize
above 10000, otherwise dropped — is applied by `generateSignals` in
`src/src/copy-trader.js`; the serverless endpoint `src/api/signals.js`
instead assigns 0.8 at 2 or more traders, else 0.6 when totalSize is above
50000, else 0.4, and drops nothing. -/
theorem confidence_tier_table (tc : ℕ) (ts : ℚ) :
    (3 ≤ tc → CopyTrader.confidence tc ts = 0.8)
    ∧ (tc < 3 → (2 ≤ tc ∨ 50000 < ts) → CopyTrader.confidence tc ts = 0.6)
    ∧ (tc < 2 → ts ≤ 50000 → 10000 < ts → CopyTrader.confidence tc ts = 0.4)
    ∧ (tc < 2 → ts ≤ 10000 →
        CopyTrader.confidence tc ts = 0 ∧ ¬ CopyTrader.emitted tc ts)
    ∧ (2 ≤ tc → SignalsApi.confidence tc ts = 0.8)
    ∧ (tc < 2 → 50000 < ts → SignalsApi.confidence tc ts = 0.6)
    ∧ (tc < 2 → ts ≤ 50000 → SignalsApi.confidence tc ts = 0.4) := by
  refine ⟨fun h3 => ?_, fun hlt3 hor => ?_, fun hlt2 hle50 hgt10 => ?_,
    fun hlt2 hle10 => ⟨?_, ?_⟩, fun h2 => ?_, fun hlt2 hgt50 => ?_,
    fun hlt2 hle50 => ?_⟩
  · simp only [CopyTrader.confidence, if_pos h3]
    rfl
  · simp only [CopyTrader.confidence]
    rw [if_neg (by omega), if_pos hor]
    rfl
  · simp only [CopyTrader.confidence]
    rw [if_neg (by omega),
      if_neg (by push_neg; exact ⟨by omega, by linarith⟩), if_pos hgt10]
    rfl
  · simp only [CopyTrader.confidence]
    rw [if_neg (by omega),
      if_neg (by push_neg; exact ⟨by omega, by linarith⟩),
      if_neg (by linarith)]
  · intro hemit
    apply hemit
    simp only [CopyTrader.confidence]
    rw [if_neg (by omega),
      if_neg (by push_neg; exact ⟨by omega, by linarith⟩),
      if_neg (by linarith)]
    norm_num [CopyTrader.confidenceThresholds]
  · simp only [SignalsApi.confidence, if_pos h2]
  · simp only [SignalsApi.confidence]
    rw [if_neg (by omega), if_pos hgt50]
  · simp only [SignalsApi.confidence]
    rw [if_neg (by omega), if_neg (by linarith)]

/-- Witness for `confidence_tier_table` at concrete groups. -/
theorem confidence_tier_table_witness :
    CopyTrader.confidence 3 6000 = 0.8 ∧ SignalsApi.confidence 1 60000 = 0.6 :=
  ⟨(confidence_tier_table 3 6000).1 (by norm_num),
   (confidence_tier_table 1 60000).2.2.2.2.2.1 (by norm_num) (by norm_num)⟩

/-- C5 counterexample: a group seen by 2 traders with totalSize 6000 gets
the medium tier (0.6) from `generateSignals` but the top tier (0.8) from
the serverless endpoint, and a single-trader group of size 6000 is dropped
by `generateSignals` but emitted at 0.4 by the endpoint — the tier table
is not applied by every signal-producing code path. -/
theorem confidence_paths_disagree :
    CopyTrader.confidence 2 6000 = 0.6 ∧ SignalsApi.confidence 2 6000 = 0.8
    ∧ (0.6 : ℚ) ≠ 0.8
    ∧ CopyTrader.confidence 1 6000 = 0 ∧ ¬ CopyTrader.emitted 1 6000
    ∧ SignalsApi.confidence 1 6000 = 0.4 := by
  norm_num [CopyTrader.confidence, SignalsApi.confidence, CopyTrader.emitted,
    CopyTrader.confidenceThresholds]

end Screener
